import Mathlib

/-!
Shallow embedding of `Ska.tdb` (file `src/Ska/tdb/tdb.py`), a read-only,
attribute-style accessor for the versioned Chandra Telemetry Database.

Modelling conventions:
* A loaded numpy structured record array is a `Table`: a list of column
  names (`dtype.names`, stored upper-case) plus a list of rows; each cell
  is an `Option String` (`none` models a masked/missing value of a masked
  record array, `some s` a present value).
* Python's `str.upper()` / `str.lower()` are `pyUpper` / `pyLower`,
  mapping the ASCII-only `Char.toUpper` / `Char.toLower` over the
  characters (MSID codes, table names and column names are ASCII).
* Exceptions are `Except TdbError`; numpy/attribute errors arising from
  raw fall-through indexing are collapsed into the single `TdbError.npError`
  constructor (no claim distinguishes them).
* The module-level mutable globals (`TDB_VERSION`, `DATA_DIR`, `tables`,
  `msids`) form an explicit `Registry` record, and the on-disk data
  directory is an explicit `Fs` value (a finite listing of `.npy` files,
  each parsed to a `Table`).
-/

/-- Python `str.upper()` restricted to the ASCII range, as tdb uses it. -/
def pyUpper (s : String) : String := ⟨s.data.map Char.toUpper⟩

/-- Python `str.lower()` restricted to the ASCII range. -/
def pyLower (s : String) : String := ⟨s.data.map Char.toLower⟩

/-- A cell of a (possibly masked) record array: `none` is a masked value. -/
abbrev Cell := Option String

/-- A loaded table: `dtype.names` plus the rows (each row parallel to
`colnames`). -/
structure Table where
  colnames : List String
  rows : List (List Cell)
deriving Repr, DecidableEq

/-- Value of column `c` in row `r` of a table with columns `cns`
(`r[cns.index(c)]`; total with junk defaults, used only under a
`c ∈ cns` guard as numpy does). -/
def cellAt (cns : List String) (r : List Cell) (c : String) : Cell :=
  match cns.indexOf? c with
  | some i => r.getD i none
  | none => none

/-- The data wrapped by a `TableView`: either a structured array of rows
(`arr`), or the single record scalar produced by `new_data[0]` when an
MSID filter matched exactly one row (`rec`). -/
inductive NpData where
  | arr (t : Table)
  | record (colnames : List String) (row : List Cell)
deriving Repr, DecidableEq

/-- Model of `self.data.dtype.names` (property `TableView.colnames`); a record
scalar keeps the dtype of the array it came from. -/
def NpData.colnames : NpData → List String
  | .arr t => t.colnames
  | .record cns _ => cns

/-- Model of `TableView.__len__`: `len(self.data)`, except that `len` of a single
record scalar raises `TypeError`, which the source catches and reports
as 1. -/
def TableView.len : NpData → Nat
  | .arr t => t.rows.length
  | .record _ _ => 1

/-- Result of `TableView.__getitem__` with a string key: a new
`TableView` (MSID filtering), a whole column, a single scalar cell
(column lookup on a record scalar), or a raised exception. -/
inductive GetItemRes where
  | view (d : NpData)
  | column (vals : List Cell)
  | scalar (v : Cell)
  | npError
deriving Repr, DecidableEq

/-- The rows of `t` whose `MSID` cell equals the (already upper-cased)
key `itemU`: `self.data[self.data['MSID'] == item]`. -/
def msidFilter (t : Table) (itemU : String) : List (List Cell) :=
  t.rows.filter (fun r => cellAt t.colnames r "MSID" == some itemU)

/-- Model of `TableView.__getitem__` for a string key `item` (non-string keys fall
through to raw positional indexing and are outside this embedding).
`item` is upper-cased; if it is not a column name and the data has an
`MSID` column, the rows matching it are selected, a one-row result being
unwrapped to a record scalar; otherwise `self.data[item]` is a column
(array case), a scalar (record-scalar case), or raises.  Boolean-mask
filtering of a record scalar (`rec` with a non-column key and an `MSID`
column) is a numpy type error. -/
def TableView.getitem (d : NpData) (item : String) : GetItemRes :=
  let itemU := pyUpper item
  match d with
  | .arr t =>
    if itemU ∉ t.colnames ∧ "MSID" ∈ t.colnames then
      let newRows := msidFilter t itemU
      if newRows.length = 1 then .view (.record t.colnames (newRows.headD []))
      else .view (.arr ⟨t.colnames, newRows⟩)
    else if itemU ∈ t.colnames then
      .column (t.rows.map (fun r => cellAt t.colnames r itemU))
    else .npError
  | .record cns row =>
    if itemU ∉ cns ∧ "MSID" ∈ cns then .npError
    else if itemU ∈ cns then .scalar (cellAt cns row itemU)
    else .npError

/-- The supported versions: `TDB_VERSIONS = (4, 6, 7, 8, 9, 10)`. -/
def TDB_VERSIONS : List Nat := [4, 6, 7, 8, 9, 10]

/-- Zero-pad to width 3, as `'p\x7b:03d\x7d'.format(version)` does after the `p`. -/
def pad3 (n : Nat) : String :=
  if n < 10 then "00" ++ toString n
  else if n < 100 then "0" ++ toString n
  else toString n

/-- Model of `os.path.join(os.path.dirname(os.path.abspath(__file__)), 'data',
'p{:03d}'.format(TDB_VERSION))`; the module directory is abstracted as
the parameter `moduleDir`. -/
def dataDirFor (moduleDir : String) (v : Nat) : String :=
  moduleDir ++ "/data/p" ++ pad3 v

/-- The module-level mutable globals of `tdb.py` gathered in one record:
`TDB_VERSION`, `DATA_DIR`, the `tables` `TableDict` (its cached
name-to-view mapping), and the `msids` root `MsidView` (an `MsidView` is
characterised by its `_msid` field, `none` at the root). -/
structure Registry where
  tdbVersion : Nat
  dataDir : String
  tablesCache : List (String × NpData)
  msidRoot : Option String
deriving Repr, DecidableEq

/-- The exceptions the source raises: the `ValueError` of
`set_tdb_version`, the `KeyError`s of `TableDict.__getitem__` and
`MsidView.__getitem__`, and any numpy/attribute error from raw
fall-through indexing (collapsed into `npError`). -/
inductive TdbError where
  | invalidVersion
  | unknownTable (name : String)
  | unknownMsid (name : String)
  | npError
deriving Repr, DecidableEq

/-- Model of `set_tdb_version`: on an unsupported version the `raise` happens
before any global is assigned, so the registry is returned unchanged
together with the error; on success all four globals are reassigned
(`tables = TableDict()` and `msids = MsidView()` are fresh and empty). -/
def set_tdb_version (moduleDir : String) (r : Registry) (v : Nat) :
    Registry × Option TdbError :=
  if v ∉ TDB_VERSIONS then (r, some .invalidVersion)
  else ({ tdbVersion := v, dataDir := dataDirFor moduleDir v,
          tablesCache := [], msidRoot := none }, none)

/-- Model of `get_tdb_version`: returns the module global `TDB_VERSION`. -/
def get_tdb_version (r : Registry) : Nat := r.tdbVersion

/-- The on-disk data: the `.npy` files, each a triple of containing
directory, base name (without `.npy`), and parsed contents. -/
structure Fs where
  files : List (String × String × Table)

/-- Model of `np.load(os.path.join(dir, name + '.npy'))`: `none` models the
`IOError` of a missing file. -/
def Fs.load (fs : Fs) (dir name : String) : Option Table :=
  (fs.files.find? (fun e => e.1 == dir && e.2.1 == name)).map (fun e => e.2.2)

/-- Model of `TableDict.__getitem__`: if `item` is not cached, try to load
`DATA_DIR/item.npy`; a missing file raises `KeyError` and caches
nothing; a successful load is wrapped in a `TableView` and cached.
Returns the cache afterwards alongside the outcome. -/
def TableDict.getitem (fs : Fs) (dataDir : String)
    (cache : List (String × NpData)) (item : String) :
    List (String × NpData) × Except TdbError NpData :=
  match cache.lookup item with
  | some v => (cache, .ok v)
  | none =>
    match fs.load dataDir item with
    | some t => ((item, NpData.arr t) :: cache, .ok (.arr t))
    | none => (cache, .error (.unknownTable item))

/-- Model of `TableDict.keys`: base names of `glob(DATA_DIR/*.npy)`; reads the
filesystem only, never the cache. -/
def TableDict.keys (fs : Fs) (dataDir : String) : List String :=
  (fs.files.filter (fun e => e.1 == dataDir)).map (fun e => e.2.1)

/-- Use a `TableView.__getitem__` result as a column array.  Any other
shape is a numpy/attribute error at the use site in the source (e.g.
iterating a `TableView`, or `in` on a raised lookup). -/
def asColumn : GetItemRes → Except TdbError (List Cell)
  | .column vs => .ok vs
  | _ => .error .npError

/-- Model of `MsidView.__getitem__`: `item.upper() in tables['tmsrment']['MSID']`;
on a hit the new view stores `item` verbatim (`MsidView(item)`), on a
miss `KeyError('No MSID ...')`.  `tmsr` is the loaded canonical
description table `tables['tmsrment']`. -/
def msidview_getitem (tmsr : Table) (item : String) :
    Except TdbError (Option String) := do
  let col ← asColumn (TableView.getitem (.arr tmsr) "MSID")
  if some (pyUpper item) ∈ col then pure (some item)
  else throw (.unknownMsid item)

/-- Model of `MsidView._get_table_func(tablename)` applied to a view whose
`_msid` is `self_msid`, with `t` the loaded table `tables[tablename]`
(always a full array).  A bound MSID is a non-empty string, so Python's
`if self._msid:` coincides with matching on the option.  `len(val)` is
`TableView.__len__` on a filtered view and the array length on a raw
column. -/
def get_table_func (t : Table) (self_msid : Option String) :
    Except TdbError (Option GetItemRes) :=
  match self_msid with
  | some m =>
    match TableView.getitem (.arr t) m with
    | .view v => .ok (if TableView.len v = 0 then none else some (.view v))
    | .column vs => .ok (if vs.length = 0 then none else some (.column vs))
    | _ => .error .npError
  | none => .ok (some (.view (.arr t)))

/-- Model of `MsidView._get_tmsrment_func(tmsrment_col)` applied to a view whose
`_msid` is `self_msid`, with `tmsr` the loaded `tables['tmsrment']`:
bound views do `tables['tmsrment'][self._msid][tmsrment_col]`, the root
does `tables['tmsrment'][tmsrment_col]`.  Indexing a raw column array by
a field name is a numpy error. -/
def get_tmsrment_func (tmsr : Table) (self_msid : Option String)
    (tmsrment_col : String) : Except TdbError GetItemRes :=
  match self_msid with
  | some m =>
    match TableView.getitem (.arr tmsr) m with
    | .view v =>
      match TableView.getitem v tmsrment_col with
      | .npError => .error .npError
      | r => .ok r
    | _ => .error .npError
  | none =>
    match TableView.getitem (.arr tmsr) tmsrment_col with
    | .npError => .error .npError
    | r => .ok r

/-- Model of `MsidView.find(match)`: the compiled case-insensitive regex
`re.compile(match, re.IGNORECASE)` is abstracted as the predicate `p`
(`p x` models `match_re.search(x) is not None`).  The body reads only
the module globals `msids` and `tables` (here: the loaded canonical
table `tmsr`), never `self`, which is still taken as a parameter to
mirror the method.  `msids.msid` is the raw MSID column (`re.search` on
a masked constant is a type error), while description and technical
name go through `.filled('')`.  The final comprehension rebinds each
selected code through `msids[x]`. -/
def MsidView.find (self_msid : Option String) (tmsr : Table)
    (p : String → Bool) : Except TdbError (List (Option String)) := do
  let msidCol ← asColumn (TableView.getitem (.arr tmsr) "msid")
  let descCol ← asColumn (TableView.getitem (.arr tmsr) "description")
  let techCol ← asColumn (TableView.getitem (.arr tmsr) "technical_name")
  let ok0 ← msidCol.mapM (fun c => match c with
    | some s => pure (p s)
    | none => throw TdbError.npError)
  let ok1 := descCol.map (fun c => p (c.getD ""))
  let ok2 := techCol.map (fun c => p (c.getD ""))
  let ok := List.zipWith (· || ·) (List.zipWith (· || ·) ok0 ok1) ok2
  let msidCol2 ← asColumn (TableView.getitem (.arr tmsr) "MSID")
  let selected := (msidCol2.zip ok).filterMap
    (fun cb => if cb.2 then some cb.1 else none)
  selected.mapM (fun c => match c with
    | some s => msidview_getitem tmsr s
    | none => throw TdbError.npError)

/-- A small concrete canonical description table used by the concrete
instantiations below: three MSIDs, one with a masked technical name and
one with a masked description. -/
def sampleTmsr : Table :=
  ⟨["MSID", "TECHNICAL_NAME", "DESCRIPTION"],
   [[some "TEPHIN", some "EPHIN SENSOR TEMP", some "temperature"],
    [some "AOPCADMD", none, some "pcad mode"],
    [some "CCC", some "gyro", none]]⟩

section CharLemmas

theorem char_toNat_ofNat {n : Nat} (h : n.isValidChar) :
    (Char.ofNat n).toNat = n := by
  simp only [Char.ofNat, dif_pos h, Char.ofNatAux, Char.toNat]
  rfl

theorem char_ofNat_toNat (c : Char) : Char.ofNat c.toNat = c := by
  apply Char.eq_of_val_eq
  apply UInt32.ext
  exact char_toNat_ofNat c.valid

theorem char_toUpper_toLower (c : Char) : c.toLower.toUpper = c.toUpper := by
  by_cases h : c.toNat ≥ 65 ∧ c.toNat ≤ 90
  · have hv : (c.toNat + 32).isValidChar := Or.inl (by omega)
    have h2 : (Char.ofNat (c.toNat + 32)).toNat = c.toNat + 32 :=
      char_toNat_ofNat hv
    simp only [Char.toLower, Char.toUpper, if_pos h, h2,
      if_pos (show c.toNat + 32 ≥ 97 ∧ c.toNat + 32 ≤ 122 by omega),
      if_neg (show ¬(c.toNat ≥ 97 ∧ c.toNat ≤ 122) by omega)]
    have h3 : c.toNat + 32 - 32 = c.toNat := by omega
    rw [h3, char_ofNat_toNat]
  · simp only [Char.toLower, if_neg h]

theorem char_toUpper_toUpper (c : Char) : c.toUpper.toUpper = c.toUpper := by
  by_cases h : c.toNat ≥ 97 ∧ c.toNat ≤ 122
  · have hv : (c.toNat - 32).isValidChar := Or.inl (by omega)
    have h2 : (Char.ofNat (c.toNat - 32)).toNat = c.toNat - 32 :=
      char_toNat_ofNat hv
    conv_lhs => rw [show c.toUpper = Char.ofNat (c.toNat - 32) by
      simp only [Char.toUpper, if_pos h]]
    simp only [Char.toUpper, h2,
      if_neg (show ¬(c.toNat - 32 ≥ 97 ∧ c.toNat - 32 ≤ 122) by omega)]
    rw [if_pos h]
  · simp only [Char.toUpper, if_neg h]

theorem pyUpper_pyLower (s : String) : pyUpper (pyLower s) = pyUpper s := by
  simp [pyUpper, pyLower, List.map_map, Function.comp_def, char_toUpper_toLower]

theorem pyUpper_pyUpper (s : String) : pyUpper (pyUpper s) = pyUpper s := by
  simp [pyUpper, List.map_map, Function.comp_def, char_toUpper_toUpper]

end CharLemmas

section Helpers

theorem except_bind_ok {ε α β : Type} (x : α) (f : α → Except ε β) :
    (Except.ok x : Except ε α) >>= f = f x := rfl

theorem mapM_ok {α β : Type} (f : α → Except TdbError β) (g : α → β) :
    ∀ l : List α, (∀ x ∈ l, f x = .ok (g x)) → l.mapM f = .ok (l.map g) := by
  intro l
  induction l with
  | nil => intro _; rfl
  | cons a as ih =>
    intro h
    rw [List.mapM_cons, h a (List.mem_cons_self a as), except_bind_ok,
      ih (fun x hx => h x (List.mem_cons_of_mem a hx)), except_bind_ok]
    rfl

theorem zipWith_map_same {α β γ δ : Type} (f : β → γ → δ) (g : α → β)
    (h : α → γ) (l : List α) :
    List.zipWith f (l.map g) (l.map h) = l.map (fun x => f (g x) (h x)) := by
  rw [List.zipWith_map, List.zipWith_same]

theorem filterMap_ite {α β : Type} (q : α → Bool) (f : α → β) (l : List α) :
    l.filterMap (fun x => if q x then some (f x) else none) =
      (l.filter q).map f := by
  induction l with
  | nil => rfl
  | cons a as ih =>
    by_cases h : q a <;>
      simp [List.filterMap_cons, List.filter_cons, h, ih]

end Helpers

/-- C5: an unsupported version is rejected with the invalid-version error
and the registry — active version, data directory, table cache and MSID
root — is returned exactly as it was. -/
theorem C5_set_version_invalid_atomic (moduleDir : String) (r : Registry)
    (v : Nat) (hv : v ∉ TDB_VERSIONS) :
    set_tdb_version moduleDir r v = (r, some TdbError.invalidVersion) ∧
    get_tdb_version (set_tdb_version moduleDir r v).1 = get_tdb_version r := by
  unfold set_tdb_version
  rw [if_pos hv]
  exact ⟨rfl, rfl⟩

/-- C5 witness at version 5 and a concrete registry. -/
theorem C5_set_version_invalid_atomic_witness :
    (5 : Nat) ∉ TDB_VERSIONS ∧
    (set_tdb_version "md" ⟨10, "md/data/p010", [], none⟩ 5 =
        (⟨10, "md/data/p010", [], none⟩, some TdbError.invalidVersion) ∧
      get_tdb_version (set_tdb_version "md" ⟨10, "md/data/p010", [], none⟩ 5).1 =
        get_tdb_version ⟨10, "md/data/p010", [], none⟩) :=
  ⟨by decide, C5_set_version_invalid_atomic "md" ⟨10, "md/data/p010", [], none⟩ 5
    (by decide)⟩

/-- C6: a supported version is recorded, the data directory is recomputed
as the deterministic function `dataDirFor` of it, and the table cache and
MSID root are reset to fresh empty state. -/
theorem C6_set_version_success (moduleDir : String) (r : Registry) (v : Nat)
    (hv : v ∈ TDB_VERSIONS) :
    set_tdb_version moduleDir r v =
      ({ tdbVersion := v, dataDir := dataDirFor moduleDir v,
         tablesCache := [], msidRoot := none }, none) ∧
    get_tdb_version (set_tdb_version moduleDir r v).1 = v := by
  unfold set_tdb_version
  rw [if_neg (by simp [hv])]
  exact ⟨rfl, rfl⟩

/-- C6 witness at version 4. -/
theorem C6_set_version_success_witness :
    (4 : Nat) ∈ TDB_VERSIONS ∧
    (set_tdb_version "md" ⟨10, "md/data/p010", [], none⟩ 4 =
      ({ tdbVersion := 4, dataDir := dataDirFor "md" 4,
         tablesCache := [], msidRoot := none }, none) ∧
    get_tdb_version (set_tdb_version "md" ⟨10, "md/data/p010", [], none⟩ 4).1 = 4) :=
  ⟨by decide, C6_set_version_success "md" ⟨10, "md/data/p010", [], none⟩ 4 (by decide)⟩

/-- C1: on an MSID-bearing table, filtering by a bound MSID that selects
exactly one row produces the single-row (record-scalar) view form: its
reported length is 1, and a subsequent column lookup on it returns a
bare scalar cell, not a one-element collection. -/
theorem C1_single_row_scalar (t : Table) (m c : String)
    (hmsid : "MSID" ∈ t.colnames)
    (hnc : pyUpper m ∉ t.colnames)
    (hone : (msidFilter t (pyUpper m)).length = 1)
    (hc : pyUpper c ∈ t.colnames) :
    ∃ row,
      TableView.getitem (.arr t) m = .view (.record t.colnames row) ∧
      TableView.len (.record t.colnames row) = 1 ∧
      ∃ v, TableView.getitem (.record t.colnames row) c = .scalar v := by
  refine ⟨(msidFilter t (pyUpper m)).headD [], ?_, rfl, ?_⟩
  · simp only [TableView.getitem]
    rw [if_pos ⟨hnc, hmsid⟩, if_pos hone]
  · simp only [TableView.getitem]
    rw [if_neg (fun h => h.1 hc), if_pos hc]
    exact ⟨_, rfl⟩

/-- C1 witness: a two-row table where the key TEPHIN matches one row. -/
theorem C1_single_row_scalar_witness :
    ("MSID" ∈ (Table.mk ["MSID", "ENG_UNIT"]
        [[some "TEPHIN", some "K"], [some "AOPCADMD", some "NONE"]]).colnames ∧
      pyUpper "tephin" ∉ (Table.mk ["MSID", "ENG_UNIT"]
        [[some "TEPHIN", some "K"], [some "AOPCADMD", some "NONE"]]).colnames ∧
      (msidFilter (Table.mk ["MSID", "ENG_UNIT"]
        [[some "TEPHIN", some "K"], [some "AOPCADMD", some "NONE"]])
        (pyUpper "tephin")).length = 1 ∧
      pyUpper "eng_unit" ∈ (Table.mk ["MSID", "ENG_UNIT"]
        [[some "TEPHIN", some "K"], [some "AOPCADMD", some "NONE"]]).colnames) ∧
    (∃ row,
      TableView.getitem (.arr (Table.mk ["MSID", "ENG_UNIT"]
        [[some "TEPHIN", some "K"], [some "AOPCADMD", some "NONE"]])) "tephin" =
        .view (.record (Table.mk ["MSID", "ENG_UNIT"]
          [[some "TEPHIN", some "K"], [some "AOPCADMD", some "NONE"]]).colnames row) ∧
      TableView.len (.record (Table.mk ["MSID", "ENG_UNIT"]
        [[some "TEPHIN", some "K"], [some "AOPCADMD", some "NONE"]]).colnames row) = 1 ∧
      ∃ v, TableView.getitem (.record (Table.mk ["MSID", "ENG_UNIT"]
        [[some "TEPHIN", some "K"], [some "AOPCADMD", some "NONE"]]).colnames row)
        "eng_unit" = .scalar v) :=
  ⟨⟨by decide, by decide, by decide, by decide⟩,
    C1_single_row_scalar _ "tephin" "eng_unit"
      (by decide) (by decide) (by decide) (by decide)⟩

/-- C10: at the Table View level, filtering an MSID-bearing table by a
string key that is neither a column name nor any row's MSID neither
raises nor yields an absence marker: it returns a view holding zero
rows. -/
theorem C10_miss_returns_empty_view (t : Table) (m : String)
    (hmsid : "MSID" ∈ t.colnames)
    (hnc : pyUpper m ∉ t.colnames)
    (hno : ∀ r ∈ t.rows, cellAt t.colnames r "MSID" ≠ some (pyUpper m)) :
    TableView.getitem (.arr t) m = .view (.arr (Table.mk t.colnames [])) ∧
    TableView.len (.arr (Table.mk t.colnames [])) = 0 := by
  have hempty : msidFilter t (pyUpper m) = [] := by
    simp only [msidFilter, List.filter_eq_nil_iff]
    intro r hr
    simpa using hno r hr
  constructor
  · simp only [TableView.getitem]
    rw [if_pos ⟨hnc, hmsid⟩, hempty]
    simp
  · rfl

/-- C10 witness: the key ZZZ matches no row of a one-row table. -/
theorem C10_miss_returns_empty_view_witness :
    ("MSID" ∈ (Table.mk ["MSID"] [[some "TEPHIN"]]).colnames ∧
      pyUpper "zzz" ∉ (Table.mk ["MSID"] [[some "TEPHIN"]]).colnames ∧
      (∀ r ∈ (Table.mk ["MSID"] [[some "TEPHIN"]]).rows,
        cellAt (Table.mk ["MSID"] [[some "TEPHIN"]]).colnames r "MSID" ≠
          some (pyUpper "zzz"))) ∧
    (TableView.getitem (.arr (Table.mk ["MSID"] [[some "TEPHIN"]])) "zzz" =
        .view (.arr (Table.mk (Table.mk ["MSID"] [[some "TEPHIN"]]).colnames [])) ∧
      TableView.len (.arr (Table.mk (Table.mk ["MSID"] [[some "TEPHIN"]]).colnames
        [])) = 0) :=
  ⟨⟨by decide, by decide, by decide⟩,
    C10_miss_returns_empty_view _ "zzz" (by decide) (by decide) (by decide)⟩

/-- C3: the bound per-table accessor on an MSID-bearing table never
raises; it returns the absence marker exactly when the per-MSID subset
is empty, and otherwise a filtered view that is never empty. -/
theorem C3_accessor_absence (t : Table) (m : String)
    (hmsid : "MSID" ∈ t.colnames)
    (hnc : pyUpper m ∉ t.colnames) :
    ∃ res, get_table_func t (some m) = .ok res ∧
      (msidFilter t (pyUpper m) = [] → res = none) ∧
      (∀ g, res = some g → ∃ d, g = .view d ∧ 0 < TableView.len d) := by
  have hget : TableView.getitem (.arr t) m =
      (if (msidFilter t (pyUpper m)).length = 1 then
        GetItemRes.view (.record t.colnames ((msidFilter t (pyUpper m)).headD []))
      else .view (.arr (Table.mk t.colnames (msidFilter t (pyUpper m))))) := by
    simp only [TableView.getitem]
    rw [if_pos ⟨hnc, hmsid⟩]
  by_cases hone : (msidFilter t (pyUpper m)).length = 1
  · refine ⟨some (.view (.record t.colnames ((msidFilter t (pyUpper m)).headD []))),
      ?_, ?_, ?_⟩
    · simp only [get_table_func, hget, if_pos hone]
      rfl
    · intro hempty
      rw [hempty] at hone
      simp at hone
    · rintro g hg
      cases hg
      exact ⟨_, rfl, by simp [TableView.len]⟩
  · by_cases hz : msidFilter t (pyUpper m) = []
    · refine ⟨none, ?_, fun _ => rfl, by rintro g ⟨⟩⟩
      simp only [get_table_func, hget, if_neg hone]
      simp [TableView.len, hz]
    · refine ⟨some (.view (.arr (Table.mk t.colnames (msidFilter t (pyUpper m))))),
        ?_, fun h => absurd h hz, ?_⟩
      · simp only [get_table_func, hget, if_neg hone]
        rw [if_neg (by simpa [TableView.len] using hz)]
      · rintro g hg
        cases hg
        refine ⟨_, rfl, ?_⟩
        simp only [TableView.len]
        exact List.length_pos.mpr hz

/-- C3 witness: AOPCADMD has no row in a one-row table, giving the
absence marker. -/
theorem C3_accessor_absence_witness :
    ("MSID" ∈ (Table.mk ["MSID"] [[some "TEPHIN"]]).colnames ∧
      pyUpper "aopcadmd" ∉ (Table.mk ["MSID"] [[some "TEPHIN"]]).colnames) ∧
    (∃ res, get_table_func (Table.mk ["MSID"] [[some "TEPHIN"]])
        (some "aopcadmd") = .ok res ∧
      (msidFilter (Table.mk ["MSID"] [[some "TEPHIN"]]) (pyUpper "aopcadmd") = [] →
        res = none) ∧
      (∀ g, res = some g → ∃ d, g = .view d ∧ 0 < TableView.len d)) :=
  ⟨⟨by decide, by decide⟩,
    C3_accessor_absence _ "aopcadmd" (by decide) (by decide)⟩

/-- C7: looking up an uncached table name whose backing file is absent
fails with the unknown-table error naming the table and leaves the cache
mapping unchanged; the failure is not cached, so a later request with
the file present (the load is retried) succeeds. -/
theorem C7_missing_table_not_cached (fs : Fs) (dataDir : String)
    (cache : List (String × NpData)) (name : String)
    (habsent : fs.load dataDir name = none)
    (huncached : cache.lookup name = none) :
    TableDict.getitem fs dataDir cache name =
      (cache, .error (.unknownTable name)) ∧
    (∀ (fs' : Fs) (t : Table), fs'.load dataDir name = some t →
      TableDict.getitem fs' dataDir cache name =
        ((name, NpData.arr t) :: cache, .ok (.arr t))) := by
  constructor
  · simp only [TableDict.getitem, huncached, habsent]
  · intro fs' t h
    simp only [TableDict.getitem, huncached, h]

/-- C7 witness: an empty data directory, then the same lookup against a
directory holding the file. -/
theorem C7_missing_table_not_cached_witness :
    ((Fs.mk []).load "d" "tsc" = none ∧
      (([] : List (String × NpData)).lookup "tsc") = none) ∧
    (TableDict.getitem (Fs.mk []) "d" [] "tsc" =
        ([], .error (.unknownTable "tsc")) ∧
      (∀ (fs' : Fs) (t : Table), fs'.load "d" "tsc" = some t →
        TableDict.getitem fs' "d" [] "tsc" =
          (("tsc", NpData.arr t) :: [], .ok (.arr t)))) :=
  ⟨⟨rfl, rfl⟩, C7_missing_table_not_cached (Fs.mk []) "d" [] "tsc" rfl rfl⟩

/-- C8: every name produced by the enumeration of the data directory can
be looked up successfully, and (provided the directory's files and any
cached views are well-formed tables, i.e. have at least one column) the
resulting view has non-empty column names. -/
theorem C8_keys_roundtrip (fs : Fs) (dataDir : String)
    (cache : List (String × NpData)) (name : String)
    (hk : name ∈ TableDict.keys fs dataDir)
    (hwf : ∀ e ∈ fs.files, (e.2.2 : Table).colnames ≠ [])
    (hcwf : ∀ e ∈ cache, (e.2 : NpData).colnames ≠ []) :
    ∃ cache2 d, TableDict.getitem fs dataDir cache name = (cache2, .ok d) ∧
      d.colnames ≠ [] := by
  cases hl : cache.lookup name with
  | some v =>
    refine ⟨cache, v, ?_, ?_⟩
    · simp only [TableDict.getitem, hl]
    · obtain ⟨l₁, l₂, hc, -⟩ := List.lookup_eq_some_iff.mp hl
      have hmem : (name, v) ∈ cache := by
        rw [hc]; exact List.mem_append_right _ (List.mem_cons_self _ _)
      exact hcwf _ hmem
  | none =>
    obtain ⟨e, he, hename⟩ : ∃ e ∈ fs.files.filter (fun e => e.1 == dataDir),
        e.2.1 = name := by
      simpa [TableDict.keys] using hk
    have hememb : e ∈ fs.files := (List.mem_filter.mp he).1
    have hedir : (e.1 == dataDir) = true := (List.mem_filter.mp he).2
    have hfind : (fs.files.find? (fun x => x.1 == dataDir && x.2.1 == name)).isSome := by
      rw [List.find?_isSome]
      exact ⟨e, hememb, by simp [hedir, hename]⟩
    obtain ⟨e', hfe⟩ := Option.isSome_iff_exists.mp hfind
    have hload : fs.load dataDir name = some e'.2.2 := by
      simp only [Fs.load, hfe, Option.map_some']
    refine ⟨(name, NpData.arr e'.2.2) :: cache, .arr e'.2.2, ?_, ?_⟩
    · simp only [TableDict.getitem, hl, hload]
    · exact hwf e' (List.mem_of_find?_eq_some hfe)

/-- C8 witness: a directory with one well-formed table file. -/
theorem C8_keys_roundtrip_witness :
    ("tsc" ∈ TableDict.keys (Fs.mk [("d", "tsc", Table.mk ["MSID"] [])]) "d" ∧
      (∀ e ∈ (Fs.mk [("d", "tsc", Table.mk ["MSID"] [])]).files,
        (e.2.2 : Table).colnames ≠ []) ∧
      (∀ e ∈ ([] : List (String × NpData)), (e.2 : NpData).colnames ≠ [])) ∧
    (∃ cache2 d,
      TableDict.getitem (Fs.mk [("d", "tsc", Table.mk ["MSID"] [])]) "d" [] "tsc" =
        (cache2, .ok d) ∧ d.colnames ≠ []) :=
  ⟨⟨by decide, by decide, by decide⟩,
    C8_keys_roundtrip (Fs.mk [("d", "tsc", Table.mk ["MSID"] [])]) "d" [] "tsc"
      (by decide) (by decide) (by decide)⟩

section MsidLookupHelpers

theorem msidFilter_one (t : Table) (u : String)
    (hone : (msidFilter t u).length = 1) :
    ∃ r, msidFilter t u = [r] ∧ r ∈ t.rows ∧
      cellAt t.colnames r "MSID" = some u := by
  obtain ⟨r, hr⟩ := List.length_eq_one.mp hone
  have hmem : r ∈ msidFilter t u := by
    rw [hr]; exact List.mem_cons_self _ _
  have hmf := List.mem_filter.mp hmem
  exact ⟨r, hr, hmf.1, by simpa using hmf.2⟩

theorem msid_column_eq (tmsr : Table) (hmsid : "MSID" ∈ tmsr.colnames) :
    TableView.getitem (.arr tmsr) "MSID" =
      .column (tmsr.rows.map (fun r => cellAt tmsr.colnames r "MSID")) := by
  have hMS : pyUpper "MSID" = "MSID" := by decide
  simp only [TableView.getitem, hMS]
  rw [if_neg (fun h => h.1 hmsid), if_pos hmsid]

theorem msidview_getitem_ok (tmsr : Table) (k : String)
    (hmsid : "MSID" ∈ tmsr.colnames)
    (hk : some (pyUpper k) ∈
      tmsr.rows.map (fun r => cellAt tmsr.colnames r "MSID")) :
    msidview_getitem tmsr k = .ok (some k) := by
  simp only [msidview_getitem, msid_column_eq tmsr hmsid, asColumn,
    except_bind_ok]
  rw [if_pos hk]
  rfl

theorem msidview_getitem_absent (tmsr : Table) (k : String)
    (hmsid : "MSID" ∈ tmsr.colnames)
    (hk : some (pyUpper k) ∉
      tmsr.rows.map (fun r => cellAt tmsr.colnames r "MSID")) :
    msidview_getitem tmsr k = .error (.unknownMsid k) := by
  simp only [msidview_getitem, msid_column_eq tmsr hmsid, asColumn,
    except_bind_ok]
  rw [if_neg hk]
  rfl

theorem get_tmsrment_msid (tmsr : Table) (k : String)
    (hmsid : "MSID" ∈ tmsr.colnames)
    (hnc : pyUpper k ∉ tmsr.colnames)
    (hone : (msidFilter tmsr (pyUpper k)).length = 1) :
    get_tmsrment_func tmsr (some k) "msid" =
      .ok (.scalar (some (pyUpper k))) := by
  obtain ⟨r, hfil, hrmem, hcell⟩ := msidFilter_one tmsr (pyUpper k) hone
  have hview : TableView.getitem (.arr tmsr) k =
      .view (.record tmsr.colnames r) := by
    simp only [TableView.getitem]
    rw [if_pos ⟨hnc, hmsid⟩, if_pos hone, hfil]
    rfl
  have hscal : TableView.getitem (.record tmsr.colnames r) "msid" =
      .scalar (some (pyUpper k)) := by
    have hms : pyUpper "msid" = "MSID" := by decide
    simp only [TableView.getitem, hms]
    rw [if_neg (fun h => h.1 hmsid), if_pos hmsid, hcell]
  simp only [get_tmsrment_func, hview, hscal]

end MsidLookupHelpers

/-- C2: keyed MSID lookup upper-cases the key and tests membership in
the canonical description table's MSID column, failing with the
unknown-MSID error when absent; for a known MSID all casings of the key
succeed and the three resulting bound views carry the same normalized
(upper-cased) MSID code, as reported by their `msid` attribute. -/
theorem C2_lookup_case_insensitive (tmsr : Table) (m : String)
    (hmsid : "MSID" ∈ tmsr.colnames)
    (hnc : pyUpper m ∉ tmsr.colnames)
    (hone : (msidFilter tmsr (pyUpper m)).length = 1) :
    (∀ k, some (pyUpper k) ∉
        tmsr.rows.map (fun r => cellAt tmsr.colnames r "MSID") →
      msidview_getitem tmsr k = .error (.unknownMsid k)) ∧
    msidview_getitem tmsr m = .ok (some m) ∧
    msidview_getitem tmsr (pyLower m) = .ok (some (pyLower m)) ∧
    msidview_getitem tmsr (pyUpper m) = .ok (some (pyUpper m)) ∧
    get_tmsrment_func tmsr (some m) "msid" =
      .ok (.scalar (some (pyUpper m))) ∧
    get_tmsrment_func tmsr (some (pyLower m)) "msid" =
      .ok (.scalar (some (pyUpper m))) ∧
    get_tmsrment_func tmsr (some (pyUpper m)) "msid" =
      .ok (.scalar (some (pyUpper m))) := by
  obtain ⟨r, hfil, hrmem, hcell⟩ := msidFilter_one tmsr (pyUpper m) hone
  have hk : some (pyUpper m) ∈
      tmsr.rows.map (fun r => cellAt tmsr.colnames r "MSID") := by
    rw [← hcell]
    exact List.mem_map_of_mem _ hrmem
  refine ⟨fun k hkabs => msidview_getitem_absent tmsr k hmsid hkabs,
    msidview_getitem_ok tmsr m hmsid hk, ?_, ?_, ?_, ?_, ?_⟩
  · exact msidview_getitem_ok tmsr (pyLower m) hmsid
      (by rw [pyUpper_pyLower]; exact hk)
  · exact msidview_getitem_ok tmsr (pyUpper m) hmsid
      (by rw [pyUpper_pyUpper]; exact hk)
  · exact get_tmsrment_msid tmsr m hmsid hnc hone
  · have := get_tmsrment_msid tmsr (pyLower m) hmsid
      (by rw [pyUpper_pyLower]; exact hnc)
      (by rw [pyUpper_pyLower]; exact hone)
    rwa [pyUpper_pyLower] at this
  · have := get_tmsrment_msid tmsr (pyUpper m) hmsid
      (by rw [pyUpper_pyUpper]; exact hnc)
      (by rw [pyUpper_pyUpper]; exact hone)
    rwa [pyUpper_pyUpper] at this

/-- C2 witness on `sampleTmsr` with the mixed-case key Tephin. -/
theorem C2_lookup_case_insensitive_witness :
    ("MSID" ∈ sampleTmsr.colnames ∧
      pyUpper "Tephin" ∉ sampleTmsr.colnames ∧
      (msidFilter sampleTmsr (pyUpper "Tephin")).length = 1) ∧
    ((∀ k, some (pyUpper k) ∉
        sampleTmsr.rows.map (fun r => cellAt sampleTmsr.colnames r "MSID") →
      msidview_getitem sampleTmsr k = .error (.unknownMsid k)) ∧
    msidview_getitem sampleTmsr "Tephin" = .ok (some "Tephin") ∧
    msidview_getitem sampleTmsr (pyLower "Tephin") =
      .ok (some (pyLower "Tephin")) ∧
    msidview_getitem sampleTmsr (pyUpper "Tephin") =
      .ok (some (pyUpper "Tephin")) ∧
    get_tmsrment_func sampleTmsr (some "Tephin") "msid" =
      .ok (.scalar (some (pyUpper "Tephin"))) ∧
    get_tmsrment_func sampleTmsr (some (pyLower "Tephin")) "msid" =
      .ok (.scalar (some (pyUpper "Tephin"))) ∧
    get_tmsrment_func sampleTmsr (some (pyUpper "Tephin")) "msid" =
      .ok (.scalar (some (pyUpper "Tephin")))) :=
  ⟨⟨by decide, by decide, by decide⟩,
    C2_lookup_case_insensitive sampleTmsr "Tephin"
      (by decide) (by decide) (by decide)⟩

/-- C9: the full-text search consults only the module-level root and the
canonical description table, never the view it is invoked on, so a bound
view and the unbound root return identical results for every pattern. -/
theorem C9_find_ignores_binding (b b' : Option String) (tmsr : Table)
    (p : String → Bool) :
    MsidView.find b tmsr p = MsidView.find b' tmsr p := rfl

theorem column_eq (t : Table) (item : String)
    (hin : pyUpper item ∈ t.colnames) :
    TableView.getitem (.arr t) item =
      .column (t.rows.map (fun r => cellAt t.colnames r (pyUpper item))) := by
  simp only [TableView.getitem]
  rw [if_neg (fun h => h.1 hin), if_pos hin]

/-- C4: with the compiled case-insensitive regex abstracted as the match
predicate `p`, the search matches each row of the canonical description
table on its MSID code, description and technical name (masked values
read as the empty string), keeps a row if ANY of the three matches, and
returns one bound view per matching row in native row order. -/
theorem C4_find_matches (self : Option String) (tmsr : Table)
    (p : String → Bool)
    (hm : "MSID" ∈ tmsr.colnames)
    (hd : "DESCRIPTION" ∈ tmsr.colnames)
    (ht : "TECHNICAL_NAME" ∈ tmsr.colnames)
    (hpres : ∀ r ∈ tmsr.rows, (cellAt tmsr.colnames r "MSID").isSome)
    (hupper : ∀ r ∈ tmsr.rows,
      pyUpper ((cellAt tmsr.colnames r "MSID").getD "") =
        (cellAt tmsr.colnames r "MSID").getD "") :
    MsidView.find self tmsr p = .ok
      ((tmsr.rows.filter (fun r =>
          p ((cellAt tmsr.colnames r "MSID").getD "") ||
          p ((cellAt tmsr.colnames r "DESCRIPTION").getD "") ||
          p ((cellAt tmsr.colnames r "TECHNICAL_NAME").getD ""))).map
        (fun r => cellAt tmsr.colnames r "MSID")) := by
  have hcm : TableView.getitem (.arr tmsr) "msid" =
      .column (tmsr.rows.map (fun r => cellAt tmsr.colnames r "MSID")) := by
    have h1 : pyUpper "msid" = "MSID" := by decide
    have h2 := column_eq tmsr "msid" (by rw [h1]; exact hm)
    rwa [h1] at h2
  have hcd : TableView.getitem (.arr tmsr) "description" =
      .column (tmsr.rows.map (fun r => cellAt tmsr.colnames r "DESCRIPTION")) := by
    have h1 : pyUpper "description" = "DESCRIPTION" := by decide
    have h2 := column_eq tmsr "description" (by rw [h1]; exact hd)
    rwa [h1] at h2
  have hct : TableView.getitem (.arr tmsr) "technical_name" =
      .column (tmsr.rows.map
        (fun r => cellAt tmsr.colnames r "TECHNICAL_NAME")) := by
    have h1 : pyUpper "technical_name" = "TECHNICAL_NAME" := by decide
    have h2 := column_eq tmsr "technical_name" (by rw [h1]; exact ht)
    rwa [h1] at h2
  have hok0 : ((tmsr.rows.map
      (fun r => cellAt tmsr.colnames r "MSID")).mapM
      (fun c => match c with
        | some s => pure (p s)
        | none => throw TdbError.npError) : Except TdbError (List Bool)) =
      .ok ((tmsr.rows.map (fun r => cellAt tmsr.colnames r "MSID")).map
        (fun c => p (c.getD ""))) := by
    apply mapM_ok
    intro c hc
    obtain ⟨r, hr, rfl⟩ := List.mem_map.mp hc
    obtain ⟨s, hs⟩ := Option.isSome_iff_exists.mp (hpres r hr)
    rw [hs]
    rfl
  simp only [MsidView.find, hcm, hcd, hct, msid_column_eq tmsr hm, asColumn,
    except_bind_ok, hok0, List.map_map]
  rw [zipWith_map_same, zipWith_map_same, List.zip_map', List.filterMap_map]
  simp only [Function.comp_def]
  rw [filterMap_ite]
  have hfin : ∀ c ∈ (tmsr.rows.filter (fun r =>
        (p ((cellAt tmsr.colnames r "MSID").getD "") ||
          p ((cellAt tmsr.colnames r "DESCRIPTION").getD "")) ||
        p ((cellAt tmsr.colnames r "TECHNICAL_NAME").getD ""))).map
      (fun r => cellAt tmsr.colnames r "MSID"),
      (fun c => match c with
        | some s => msidview_getitem tmsr s
        | none => throw TdbError.npError) c = Except.ok (id c) := by
    intro c hc
    obtain ⟨r, hrf, rfl⟩ := List.mem_map.mp hc
    have hr : r ∈ tmsr.rows := List.mem_of_mem_filter hrf
    obtain ⟨s, hs⟩ := Option.isSome_iff_exists.mp (hpres r hr)
    rw [hs]
    have hu : pyUpper s = s := by
      have h3 := hupper r hr
      rw [hs] at h3
      simpa using h3
    have hksome : some (pyUpper s) ∈
        tmsr.rows.map (fun r => cellAt tmsr.colnames r "MSID") := by
      rw [hu, ← hs]
      exact List.mem_map_of_mem _ hr
    simpa [id] using msidview_getitem_ok tmsr s hm hksome
  have h4 := mapM_ok _ id _ hfin
  rw [List.map_id] at h4
  exact h4

/-- C4 witness: on `sampleTmsr`, a predicate that only matches the
description field selects exactly the TEPHIN row. -/
theorem C4_find_matches_witness :
    ("MSID" ∈ sampleTmsr.colnames ∧
      "DESCRIPTION" ∈ sampleTmsr.colnames ∧
      "TECHNICAL_NAME" ∈ sampleTmsr.colnames ∧
      (∀ r ∈ sampleTmsr.rows, (cellAt sampleTmsr.colnames r "MSID").isSome) ∧
      (∀ r ∈ sampleTmsr.rows,
        pyUpper ((cellAt sampleTmsr.colnames r "MSID").getD "") =
          (cellAt sampleTmsr.colnames r "MSID").getD "")) ∧
    MsidView.find none sampleTmsr (fun s => s == "temperature") = .ok
      ((sampleTmsr.rows.filter (fun r =>
          (fun s => s == "temperature")
            ((cellAt sampleTmsr.colnames r "MSID").getD "") ||
          (fun s => s == "temperature")
            ((cellAt sampleTmsr.colnames r "DESCRIPTION").getD "") ||
          (fun s => s == "temperature")
            ((cellAt sampleTmsr.colnames r "TECHNICAL_NAME").getD ""))).map
        (fun r => cellAt sampleTmsr.colnames r "MSID")) :=
  ⟨⟨by decide, by decide, by decide, by decide, by decide⟩,
    C4_find_matches none sampleTmsr (fun s => s == "temperature")
      (by decide) (by decide) (by decide) (by decide) (by decide)⟩
